import Mathlib

/-!
# Quiz-taking engine: shallow embedding of `QuizTaker` (src/unnamed/part_002)

The component keeps React state
`currentQuestion : number`, `answers : object (question index -> option index)`,
`timeRemaining : number`, `quizCompleted : bool`, `showResults : bool`,
`score : number-or-NaN`.

Modelling choices:
* JS objects with integer-like keys enumerate in ascending numeric order
  (`Object.values`), so `answers` is an association list kept sorted by key;
  `insertAnswer` embeds the spread `\x7b ...prev, [questionIndex]: answerIndex \x7d`.
* JS numbers are IEEE-754 binary64; the score expression
  `Math.round((correct / questions.length) * 100)` rounds twice (the
  division and the product with the exactly representable `100`), each to
  the nearest double with ties to even. `mant53` performs that rounding on
  exact rationals, valid on the normal finite range, which covers every
  value the component can produce; `Math.round` itself is the floor of the
  double's exact value plus `1/2`. For `questions.length = 0` the JS value
  is `NaN` (`Math.round(0/0)`), encoded as `none`. The double evaluation
  can differ from exact round-half-up of `100*c/n`: the smallest case is
  `c = 23`, `n = 40`, where the program yields 57 and exact rounding 58.
* The timer `useEffect` has two reachable actions: when
  `timeRemaining > 0 && !quizCompleted` it schedules a 1-second decrement,
  and when `timeRemaining === 0 && !quizCompleted` it immediately calls
  `handleSubmitQuiz`. `runEffect` is the synchronous part of one effect run;
  `tick` is the passage of one second while a decrement is pending
  (the decrement followed by the immediate effect re-run).
-/

structure Question where
  question : String
  options : List String
  correctAnswer : Nat
  explanation : Option String
deriving DecidableEq, Repr

structure Quiz where
  title : String
  timeLimit : Nat
  questions : List Question
deriving DecidableEq, Repr

structure QuizState where
  currentQuestion : Nat
  answers : List (Nat × Nat)
  timeRemaining : Nat
  quizCompleted : Bool
  showResults : Bool
  score : Option Nat
deriving DecidableEq, Repr

structure QuizResult where
  answers : List (Nat × Nat)
  score : Option Nat
  timeSpent : Nat
deriving DecidableEq, Repr

/-- Reading `answers[i]`: `none` is JS `undefined` (no such key). -/
def lookupAnswer : List (Nat × Nat) → Nat → Option Nat
  | [], _ => none
  | (j, v) :: rest, i => if i = j then some v else lookupAnswer rest i

/-- The object spread `\x7b ...prev, [i]: k \x7d`, keeping keys in ascending
numeric order (JS integer-key enumeration order). -/
def insertAnswer (i k : Nat) : List (Nat × Nat) → List (Nat × Nat)
  | [] => [(i, k)]
  | (j, v) :: rest =>
    if i < j then (i, k) :: (j, v) :: rest
    else if i = j then (i, k) :: rest
    else (j, v) :: insertAnswer i k rest

/-- Loop `quiz.questions.forEach((question, index) => if (answers[index] ===
question.correctAnswer) correct++)`, with `index` threaded explicitly. -/
def countCorrect (a : List (Nat × Nat)) : Nat → List Question → Nat
  | _, [] => 0
  | i, qn :: rest =>
    (if lookupAnswer a i = some qn.correctAnswer then 1 else 0) + countCorrect a (i + 1) rest

/-- Fuel-bounded binary length of a natural number; the fuel used below is
ample for every magnitude the component can produce. -/
def bitLen : Nat → Nat → Nat
  | 0, _ => 0
  | fuel + 1, n => if n = 0 then 0 else bitLen fuel (n / 2) + 1

/-- Rounding of the positive rational `a / b` to 53 significant bits, ties
to even (IEEE-754 binary64, round-to-nearest): returns `(m, t)`, the value
of the resulting double being `m * 2 ^ t`. Valid on the normal finite range
(no overflow or subnormals, which option counts and percentages never
reach). -/
def mant53 (a b : Nat) : Nat × Int :=
  let e0 : Int := (bitLen 4096 a : Int) - (bitLen 4096 b : Int)
  let e : Int := if a * 2 ^ (-e0).toNat < b * 2 ^ e0.toNat then e0 - 1 else e0
  let A := a * 2 ^ (52 - e).toNat
  let B := b * 2 ^ (e - 52).toNat
  let m := A / B
  let r := A % B
  let m2 :=
    if 2 * r < B then m
    else if B < 2 * r then m + 1
    else if m % 2 = 0 then m else m + 1
  (m2, e - 52)

/-- Floor of `m * 2 ^ t + 1 / 2`: the `Math.round` (half toward plus
infinity, on the exact value) of a nonnegative double given as mantissa and
exponent. -/
def roundHalfUpVal (m : Nat) (t : Int) : Nat :=
  if 0 ≤ t then m * 2 ^ t.toNat
  else (2 * m + 2 ^ (-t).toNat) / 2 ^ ((-t).toNat + 1)

/-- Evaluation of `Math.round((c / n) * 100)` in IEEE binary64 arithmetic,
as the source computes it: `c / n` is rounded to the nearest double, the
product with `100` is rounded again, and `Math.round` floors the resulting
double's exact value plus `1 / 2`. For `n = 0` the JS value is
`Math.round((0 / 0) * 100) = NaN`, modelled as `none`; `c = 0` gives the
exact double `0`. -/
def jsRoundDiv (c n : Nat) : Option Nat :=
  if n = 0 then none
  else if c = 0 then some 0
  else
    let p1 := mant53 c n
    let p2 := mant53 (p1.1 * 100) 1
    some (roundHalfUpVal p2.1 (p2.2 + p1.2))

/-- Exact round-half-up of `100 * c / n` encoded in Nat division: the
idealized `round(100 * correctCount / questionCount)` of the spec, to be
compared with the program's double evaluation `jsRoundDiv`. -/
def exactRound (c n : Nat) : Nat := (200 * c + n) / (2 * n)

/-- The source function `calculateScore`. -/
def calculateScore (q : Quiz) (a : List (Nat × Nat)) : Option Nat :=
  jsRoundDiv (countCorrect a 0 q.questions) q.questions.length

/-- Initial React state: `useState(0)`, `useState(\x7b\x7d)`,
`useState(quiz.timeLimit * 60)`, `useState(false)`, `useState(false)`,
`useState(0)`. No validation of the definition happens. -/
def initState (q : Quiz) : QuizState :=
  { currentQuestion := 0, answers := [], timeRemaining := q.timeLimit * 60,
    quizCompleted := false, showResults := false, score := some 0 }

/-- Handler `handleAnswerSelect(questionIndex, answerIndex)`. -/
def handleAnswerSelect (questionIndex answerIndex : Nat) (s : QuizState) : QuizState :=
  { s with answers := insertAnswer questionIndex answerIndex s.answers }

/-- Handler `handleNext`. -/
def handleNext (q : Quiz) (s : QuizState) : QuizState :=
  if s.currentQuestion < q.questions.length - 1 then
    { s with currentQuestion := s.currentQuestion + 1 }
  else s

/-- Handler `handlePrevious`. -/
def handlePrevious (s : QuizState) : QuizState :=
  if 0 < s.currentQuestion then { s with currentQuestion := s.currentQuestion - 1 } else s

/-- Navigation `setCurrentQuestion(index)` as invoked by the question jump buttons
(`onClick=\x7b() => setCurrentQuestion(index)\x7d`); no range check exists. -/
def setCurrentQuestion (i : Nat) (s : QuizState) : QuizState :=
  { s with currentQuestion := i }

/-- Submission `handleSubmitQuiz`: computes the score, marks the state completed, and
produces the record handed to `onComplete` (answers, score, timeSpent). -/
def handleSubmitQuiz (q : Quiz) (s : QuizState) : QuizState × QuizResult :=
  let finalScore := calculateScore q s.answers
  ({ s with score := finalScore, quizCompleted := true, showResults := true },
   { answers := s.answers, score := finalScore,
     timeSpent := q.timeLimit * 60 - s.timeRemaining })

/-- Restart `handleRestart`: resets every state variable to its initial value. -/
def handleRestart (q : Quiz) (_s : QuizState) : QuizState :=
  { currentQuestion := 0, answers := [], timeRemaining := q.timeLimit * 60,
    quizCompleted := false, showResults := false, score := some 0 }

/-- The synchronous action of one run of the timer `useEffect`: with
`timeRemaining === 0 && !quizCompleted` it calls `handleSubmitQuiz`
immediately; otherwise it changes nothing now (it may only schedule a
decrement). -/
def runEffect (q : Quiz) (s : QuizState) : QuizState :=
  if s.timeRemaining = 0 ∧ s.quizCompleted = false then (handleSubmitQuiz q s).1 else s

/-- One second passing while a decrement is pending. A decrement is pending
exactly when the last effect run saw `timeRemaining > 0 && !quizCompleted`;
the timeout fires `setTimeRemaining(prev => prev - 1)` and the effect re-runs
on the new state (auto-submitting if it reached 0). -/
def tick (q : Quiz) (s : QuizState) : QuizState :=
  if 0 < s.timeRemaining ∧ s.quizCompleted = false then
    runEffect q { s with timeRemaining := s.timeRemaining - 1 }
  else s

/-- Results-summary "Correct Answers" figure:
`Object.values(answers).filter((answer, index) => answer ===
quiz.questions[index].correctAnswer).length`. The filter index is the
POSITION in the values array; `quiz.questions[index]` is embedded totally
(`none` compares unequal), the JS access being in range whenever the answer
keys are valid question indices. -/
def summaryCount (q : Quiz) (a : List (Nat × Nat)) : Nat :=
  (((a.map Prod.snd).enum).filter
    (fun p => decide ((q.questions.get? p.1).map Question.correctAnswer = some p.2))).length

/-! ### Concrete fixtures -/

def exQuestions : List Question :=
  [ { question := "a", options := ["o0", "o1", "o2"], correctAnswer := 1, explanation := none },
    { question := "b", options := ["o0", "o1", "o2"], correctAnswer := 0, explanation := none },
    { question := "c", options := ["o0", "o1", "o2"], correctAnswer := 2, explanation := none } ]

/-- A 3-question untimed quiz (`timeLimit = 0`). -/
def untimedQuiz : Quiz := { title := "demo", timeLimit := 0, questions := exQuestions }

/-- The same 3 questions with a 1-minute limit. -/
def timedQuiz : Quiz := { title := "demo", timeLimit := 1, questions := exQuestions }

/-- The same 3 questions with a 10-minute limit. -/
def tenMinQuiz : Quiz := { title := "demo", timeLimit := 10, questions := exQuestions }

/-- A 2-question quiz, correct answers `[1, 0]`. -/
def twoQuiz : Quiz :=
  { title := "demo2", timeLimit := 10,
    questions :=
      [ { question := "p", options := ["o0", "o1"], correctAnswer := 1, explanation := none },
        { question := "q", options := ["o0", "o1"], correctAnswer := 0, explanation := none } ] }

/-- A definition with an empty question list. -/
def emptyQuiz : Quiz := { title := "empty", timeLimit := 10, questions := [] }

/-- A submitted session over `tenMinQuiz`, for post-submission experiments. -/
def submittedDemo : QuizState := (handleSubmitQuiz tenMinQuiz (initState tenMinQuiz)).1

/-- The spec scenario state: answers `[1, 0, 0]` recorded on `tenMinQuiz`. -/
def scenarioState : QuizState :=
  handleAnswerSelect 2 0 (handleAnswerSelect 1 0 (handleAnswerSelect 0 1 (initState tenMinQuiz)))

/-- Forty identical questions with correct option 0: the smallest quiz size
at which double rounding and exact rounding of the score disagree. -/
def fortyQuiz : Quiz :=
  { title := "big", timeLimit := 10,
    questions := List.replicate 40
      { question := "q", options := ["o0", "o1"], correctAnswer := 0, explanation := none } }

/-- The `fortyQuiz` session after answering questions 0..22 correctly. -/
def fortyState : QuizState :=
  (List.range 23).foldl (fun s i => handleAnswerSelect i 0 s) (initState fortyQuiz)

/-! ### Association-list lemmas -/

theorem lookup_insert_self (i k : Nat) :
    ∀ a, lookupAnswer (insertAnswer i k a) i = some k := by
  intro a
  induction a with
  | nil => simp [insertAnswer, lookupAnswer]
  | cons hd tl ih =>
    obtain ⟨j, v⟩ := hd
    by_cases h1 : i < j
    · simp [insertAnswer, h1, lookupAnswer]
    · by_cases h2 : i = j
      · simp [insertAnswer, h1, h2, lookupAnswer]
      · simp [insertAnswer, h1, h2, lookupAnswer, ih]

theorem lookup_insert_ne (i k j : Nat) (hj : j ≠ i) :
    ∀ a, lookupAnswer (insertAnswer i k a) j = lookupAnswer a j := by
  intro a
  induction a with
  | nil => simp [insertAnswer, lookupAnswer, hj]
  | cons hd tl ih =>
    obtain ⟨m, v⟩ := hd
    by_cases h1 : i < m
    · simp [insertAnswer, h1, lookupAnswer, hj]
    · by_cases h2 : i = m
      · subst h2
        simp [insertAnswer, h1, lookupAnswer, hj]
      · by_cases h3 : j = m
        · simp [insertAnswer, h1, h2, lookupAnswer, h3]
        · simp [insertAnswer, h1, h2, lookupAnswer, h3, ih]

/-! ### Timer lemmas -/

theorem tick_iterate_pending (q : Quiz) :
    ∀ (k : Nat) (s : QuizState), s.quizCompleted = false → k < s.timeRemaining →
      (tick q)^[k] s = { s with timeRemaining := s.timeRemaining - k } := by
  intro k
  induction k with
  | zero => intro s _ _; simp
  | succ k ih =>
    intro s hc hk
    rw [Function.iterate_succ_apply', ih s hc (by omega)]
    have h1 : 0 < s.timeRemaining - k := by omega
    have h2 : ¬(s.timeRemaining - k - 1 = 0) := by omega
    simp only [tick, runEffect, h1, hc, and_true, if_true, h2, false_and, if_false, if_pos]
    have : s.timeRemaining - k - 1 = s.timeRemaining - (k + 1) := by omega
    rw [this]

theorem tick_completed_noop (q : Quiz) (s : QuizState) (h : s.quizCompleted = true) :
    tick q s = s := by
  simp [tick, h]

/-! ### Claim theorems -/

/-- Claim C1 (code bug evaluation). For an untimed quiz (`timeLimit = 0`) the
timer effect's first run already sees `timeRemaining === 0 && !quizCompleted`
and calls `handleSubmitQuiz`: the freshly created session is auto-submitted
immediately (completed, results shown, score 0 from the empty answer map),
so it does not stay `InProgress` until an explicit submit. -/
theorem untimed_quiz_autosubmits_on_mount :
    (runEffect untimedQuiz (initState untimedQuiz)).quizCompleted = true
    ∧ (runEffect untimedQuiz (initState untimedQuiz)).showResults = true
    ∧ (runEffect untimedQuiz (initState untimedQuiz)).score = some 0
    ∧ (initState untimedQuiz).quizCompleted = false := by
  decide

/-- Claim C2. `handleSubmitQuiz` has no completeness precondition: even when
some question has no recorded answer it marks the session completed and
returns the result with `score = calculateScore` over the recorded answers
(an unanswered index contributes nothing to `countCorrect`, i.e. it counts
as incorrect). -/
theorem submit_allowed_with_unanswered (q : Quiz) (s : QuizState)
    (_h : ∃ i, i < q.questions.length ∧ lookupAnswer s.answers i = none) :
    (handleSubmitQuiz q s).1.quizCompleted = true
    ∧ (handleSubmitQuiz q s).1.showResults = true
    ∧ (handleSubmitQuiz q s).2.score = calculateScore q s.answers
    ∧ (handleSubmitQuiz q s).2.answers = s.answers := by
  exact ⟨rfl, rfl, rfl, rfl⟩

/-- Witness for C2: on `tenMinQuiz` with only question 0 answered,
submission goes through and is scored (1 of 3 correct, 33). -/
theorem submit_allowed_with_unanswered_witness :
    (∃ i, i < tenMinQuiz.questions.length
        ∧ lookupAnswer (handleAnswerSelect 0 1 (initState tenMinQuiz)).answers i = none)
    ∧ (handleSubmitQuiz tenMinQuiz (handleAnswerSelect 0 1 (initState tenMinQuiz))).1.quizCompleted
        = true
    ∧ (handleSubmitQuiz tenMinQuiz (handleAnswerSelect 0 1 (initState tenMinQuiz))).2.score
        = some 33 :=
  ⟨⟨1, by decide⟩,
   (submit_allowed_with_unanswered tenMinQuiz (handleAnswerSelect 0 1 (initState tenMinQuiz))
      ⟨1, by decide⟩).1,
   by decide⟩

/-- Claim C3 counterexample. On the 3-question `tenMinQuiz`, `setCurrentQuestion 4`
(i.e. `goToQuestion(4)`) and `handleAnswerSelect 5 0` both CHANGE the session
state instead of failing with `InvalidArgument` and leaving it unchanged. -/
theorem goToQuestion_out_of_range_changes_state :
    setCurrentQuestion 4 (initState tenMinQuiz) ≠ initState tenMinQuiz
    ∧ handleAnswerSelect 5 0 (initState tenMinQuiz) ≠ initState tenMinQuiz := by
  decide

/-- Claim C3 amended. Neither `handleAnswerSelect` nor `setCurrentQuestion`
validates its index or signals any error: `setCurrentQuestion i` sets
`currentQuestion := i` for ANY `i` (leaving answers, timer and status alone),
and `handleAnswerSelect i k` records `answers[i] := k` for ANY `i` (leaving
the other fields alone). -/
theorem select_and_goto_unvalidated (s : QuizState) (i k : Nat) :
    (setCurrentQuestion i s).currentQuestion = i
    ∧ (setCurrentQuestion i s).answers = s.answers
    ∧ (setCurrentQuestion i s).timeRemaining = s.timeRemaining
    ∧ (setCurrentQuestion i s).quizCompleted = s.quizCompleted
    ∧ lookupAnswer (handleAnswerSelect i k s).answers i = some k
    ∧ (handleAnswerSelect i k s).currentQuestion = s.currentQuestion
    ∧ (handleAnswerSelect i k s).timeRemaining = s.timeRemaining
    ∧ (handleAnswerSelect i k s).quizCompleted = s.quizCompleted :=
  ⟨rfl, rfl, rfl, rfl, lookup_insert_self i k s.answers, rfl, rfl, rfl⟩

/-- Claim C4 counterexample. A definition with an empty question list is NOT
rejected: session creation succeeds and yields a normal `InProgress` state,
and submitting it runs the score computation on zero questions, producing
`NaN` (modelled `none`) from `Math.round((0 / 0) * 100)`. -/
theorem empty_quiz_session_created :
    (initState emptyQuiz).quizCompleted = false
    ∧ (initState emptyQuiz).currentQuestion = 0
    ∧ (initState emptyQuiz).answers = []
    ∧ (handleSubmitQuiz emptyQuiz (initState emptyQuiz)).2.score = none := by
  decide

/-- Claim C4 amended. Session creation performs no validation of the
definition: every definition, the empty one included, yields an `InProgress`
session with index 0 and empty answers; when the question list is empty the
score computation divides by zero and yields `NaN` (`none`) instead of being
unreachable. -/
theorem session_creation_no_validation (q : Quiz) (a : List (Nat × Nat)) :
    (initState q).quizCompleted = false
    ∧ (initState q).currentQuestion = 0
    ∧ (initState q).answers = []
    ∧ (q.questions = [] → calculateScore q a = none) := by
  refine ⟨rfl, rfl, rfl, fun h => ?_⟩
  simp [calculateScore, jsRoundDiv, h]

/-- Witness for C4 amended, at the empty definition. -/
theorem session_creation_no_validation_witness :
    emptyQuiz.questions = [] ∧ calculateScore emptyQuiz [] = none :=
  ⟨rfl, (session_creation_no_validation emptyQuiz []).2.2.2 rfl⟩

/-- Claim C8. `handleRestart` rebuilds the exact initial state of the
definition (empty answers, index 0, timer reset, `InProgress`), and the
`QuizResult` record produced by the earlier submission still carries the
submission-time answers and score — restart builds a fresh state and does
not touch the result handed to `onComplete`. -/
theorem restart_yields_fresh_session (q : Quiz) (s : QuizState) :
    handleRestart q (handleSubmitQuiz q s).1 = initState q
    ∧ (handleRestart q (handleSubmitQuiz q s).1).answers = []
    ∧ (handleRestart q (handleSubmitQuiz q s).1).quizCompleted = false
    ∧ (handleRestart q (handleSubmitQuiz q s).1).timeRemaining = q.timeLimit * 60
    ∧ (handleSubmitQuiz q s).2.answers = s.answers
    ∧ (handleSubmitQuiz q s).2.score = calculateScore q s.answers :=
  ⟨rfl, rfl, rfl, rfl, rfl, rfl⟩

/-! ### Rounding characterization -/

theorem exactRound_eq_floor (c n : Nat) (hn : 0 < n) :
    exactRound c n = ⌊(100 * c / n : ℚ) + 1 / 2⌋₊ := by
  have hn0 : (n : ℚ) ≠ 0 := by exact_mod_cast hn.ne'
  have key : (100 * c / n : ℚ) + 1 / 2 = ((200 * c + n : Nat) : ℚ) / ((2 * n : Nat) : ℚ) := by
    push_cast
    field_simp
    ring
  rw [exactRound, key, Nat.floor_div_nat, Nat.floor_natCast]

/-- Claim C5 counterexample. On a 40-question session with 23 questions
answered correctly, the submitted score is 57 — `(23 / 40) * 100` evaluates
to the double `57.49999999999999`, which `Math.round` takes to 57 — while
the claim's formula `round(100 * 23 / 40) = round(57.5)` gives 58. -/
theorem score_double_rounding_counterexample :
    countCorrect fortyState.answers 0 fortyQuiz.questions = 23
    ∧ fortyQuiz.questions.length = 40
    ∧ (handleSubmitQuiz fortyQuiz fortyState).2.score = some 57
    ∧ ⌊(100 * 23 / 40 : ℚ) + 1 / 2⌋₊ = 58 := by
  refine ⟨by decide, by decide, by decide, ?_⟩
  rw [show (100 * 23 / 40 : ℚ) + 1 / 2 = ((58 : ℕ) : ℚ) by norm_num, Nat.floor_natCast]

set_option maxRecDepth 100000 in
/-- Claim C5 amended. Submission computes the score as
`Math.round((correctCount / questionCount) * 100)` evaluated in IEEE double
arithmetic (`jsRoundDiv`), where `countCorrect` counts indices whose
recorded answer equals `correctAnswer` and an unanswered index (lookup
`none`) contributes nothing, i.e. counts as incorrect. The double
evaluation agrees with the spec's exact `round(100 * correctCount /
questionCount)` for every quiz with fewer than 40 questions (the bound is
sharp: 23 of 40 scores 57, not 58), and on the 3-question scenario with
correct answers `[1, 0, 2]` and recorded answers `\x7b0:1, 1:0, 2:0\x7d` the
result is `score = 67` with exactly those answers. -/
theorem submit_score_formula :
    (∀ (q : Quiz) (s : QuizState),
        (handleSubmitQuiz q s).2.score
          = jsRoundDiv (countCorrect s.answers 0 q.questions) q.questions.length)
    ∧ (∀ n, n < 40 → ∀ c, c ≤ n → 0 < n →
        jsRoundDiv c n = some ⌊(100 * c / n : ℚ) + 1 / 2⌋₊)
    ∧ (∀ (a : List (Nat × Nat)) (k : Nat) (qn : Question) (l : List Question),
        lookupAnswer a k = none →
        countCorrect a k (qn :: l) = countCorrect a (k + 1) l)
    ∧ (handleSubmitQuiz tenMinQuiz scenarioState).2.score = some 67
    ∧ (handleSubmitQuiz tenMinQuiz scenarioState).2.answers = [(0, 1), (1, 0), (2, 0)] := by
  have hfin : ∀ n, n < 40 → ∀ c, c < n + 1 → 0 < n →
      jsRoundDiv c n = some (exactRound c n) := by decide
  refine ⟨fun q s => rfl, fun n hn c hc hn0 => ?_, fun a k qn l hk => ?_,
    by decide, by decide⟩
  · rw [hfin n hn c (by omega) hn0, exactRound_eq_floor c n hn0]
  · simp [countCorrect, hk]

/-- Witness for C5: the hypothesis-bearing conjuncts applied at concrete
inputs (3-question quiz with 2 correct; an unanswered head question). -/
theorem submit_score_formula_witness :
    ((3 : Nat) < 40 ∧ (2 : Nat) ≤ 3 ∧ (0 : Nat) < 3
      ∧ jsRoundDiv 2 3 = some ⌊(100 * (2 : Nat) / (3 : Nat) : ℚ) + 1 / 2⌋₊)
    ∧ (lookupAnswer [] 5 = none
      ∧ countCorrect [] 5 (exQuestions.take 1) = countCorrect [] 6 []) :=
  ⟨⟨by decide, by decide, by decide, submit_score_formula.2.1 3 (by decide) 2 (by decide) (by decide)⟩,
   ⟨rfl, by
      have := submit_score_formula.2.2.1 [] 5
        { question := "a", options := ["o0", "o1", "o2"], correctAnswer := 1,
          explanation := none } [] rfl
      simpa [exQuestions] using this⟩⟩

/-- Claim C6. For a `timeLimit = 1` definition the fresh session starts at
60 remaining seconds; from any `InProgress` state with 60 seconds remaining
(whatever answers were recorded so far), the first 59 ticks leave the session
`InProgress`, the 60th tick auto-submits it with exactly those answers and
their score, and every tick on a completed session is a no-op. -/
theorem timer_sixty_tick_boundary (q : Quiz) (s : QuizState)
    (hq : q.timeLimit = 1) (ht : s.timeRemaining = 60) (hc : s.quizCompleted = false) :
    (initState q).timeRemaining = 60
    ∧ (∀ k, k ≤ 59 → ((tick q)^[k] s).quizCompleted = false)
    ∧ ((tick q)^[60] s).quizCompleted = true
    ∧ ((tick q)^[60] s).showResults = true
    ∧ ((tick q)^[60] s).answers = s.answers
    ∧ ((tick q)^[60] s).score = calculateScore q s.answers
    ∧ (∀ s2 : QuizState, s2.quizCompleted = true → tick q s2 = s2) := by
  have h59 : (tick q)^[59] s = { s with timeRemaining := 1 } := by
    have := tick_iterate_pending q 59 s hc (by omega)
    rw [this, ht]
  have h60 : (tick q)^[60] s = (handleSubmitQuiz q { s with timeRemaining := 0 }).1 := by
    rw [show (60 : Nat) = 59 + 1 from rfl, Function.iterate_succ_apply', h59]
    simp [tick, runEffect, hc]
  refine ⟨by simp [initState, hq], fun k hk => ?_, ?_, ?_, ?_, ?_,
    fun s2 h2 => tick_completed_noop q s2 h2⟩
  · rw [tick_iterate_pending q k s hc (by omega)]
    exact hc
  · rw [h60]; rfl
  · rw [h60]; rfl
  · rw [h60]; rfl
  · rw [h60]; rfl

/-- Witness for C6: the boundary behavior on `timedQuiz` from its fresh
session. -/
theorem timer_sixty_tick_boundary_witness :
    timedQuiz.timeLimit = 1
    ∧ (initState timedQuiz).timeRemaining = 60
    ∧ (initState timedQuiz).quizCompleted = false
    ∧ ((tick timedQuiz)^[60] (initState timedQuiz)).quizCompleted = true :=
  ⟨rfl, rfl, rfl,
   (timer_sixty_tick_boundary timedQuiz (initState timedQuiz) rfl rfl rfl).2.2.1⟩

/-- Claim C7 counterexample. On a submitted session, `handleAnswerSelect`
(i.e. `selectAnswer`) DOES change `answers`: the handlers other than the
timer carry no `quizCompleted` guard. -/
theorem selectAnswer_mutates_after_submit :
    submittedDemo.quizCompleted = true
    ∧ (handleAnswerSelect 0 1 submittedDemo).answers ≠ submittedDemo.answers := by
  decide

/-- Claim C7 amended. Once `quizCompleted = true` the timer is inert
(`tick` and the effect are no-ops), and while `selectAnswer`, `goToQuestion`,
`next`, `previous` carry no status guard (they can still change `answers`
and `currentQuestionIndex` if invoked — the results view merely stops
rendering their controls), none of them ever changes `score`. -/
theorem tick_noop_after_submit_ops_keep_score (q : Quiz) (s : QuizState) (i k : Nat)
    (h : s.quizCompleted = true) :
    tick q s = s
    ∧ runEffect q s = s
    ∧ (handleAnswerSelect i k s).score = s.score
    ∧ (handleNext q s).score = s.score
    ∧ (handlePrevious s).score = s.score
    ∧ (setCurrentQuestion i s).score = s.score := by
  refine ⟨tick_completed_noop q s h, by simp [runEffect, h], rfl, ?_, ?_, rfl⟩
  · unfold handleNext; split <;> rfl
  · unfold handlePrevious; split <;> rfl

/-- Witness for C7 amended, on the concrete submitted session. -/
theorem tick_noop_after_submit_ops_keep_score_witness :
    submittedDemo.quizCompleted = true
    ∧ tick tenMinQuiz submittedDemo = submittedDemo
    ∧ (handleAnswerSelect 0 1 submittedDemo).score = submittedDemo.score :=
  ⟨rfl, (tick_noop_after_submit_ops_keep_score tenMinQuiz submittedDemo 0 1 rfl).1,
   (tick_noop_after_submit_ops_keep_score tenMinQuiz submittedDemo 0 1 rfl).2.2.1⟩

/-- Claim C9. On an `InProgress` session, `handleAnswerSelect i k` changes
only the answer entry at `i`: every other index keeps its recorded answer
(or its absence), and `currentQuestion`, `timeRemaining`, `quizCompleted`
and `score` are untouched. -/
theorem selectAnswer_frame (s : QuizState) (i k j : Nat)
    (_hs : s.quizCompleted = false) (hj : j ≠ i) :
    lookupAnswer (handleAnswerSelect i k s).answers j = lookupAnswer s.answers j
    ∧ lookupAnswer (handleAnswerSelect i k s).answers i = some k
    ∧ (handleAnswerSelect i k s).currentQuestion = s.currentQuestion
    ∧ (handleAnswerSelect i k s).timeRemaining = s.timeRemaining
    ∧ (handleAnswerSelect i k s).quizCompleted = s.quizCompleted
    ∧ (handleAnswerSelect i k s).score = s.score :=
  ⟨lookup_insert_ne i k j hj s.answers, lookup_insert_self i k s.answers, rfl, rfl, rfl, rfl⟩

/-- Witness for C9: selecting option 1 for question 0 leaves question 2's
(absent) answer and the other fields unchanged. -/
theorem selectAnswer_frame_witness :
    (initState tenMinQuiz).quizCompleted = false
    ∧ (2 : Nat) ≠ 0
    ∧ lookupAnswer (handleAnswerSelect 0 1 (initState tenMinQuiz)).answers 2
        = lookupAnswer (initState tenMinQuiz).answers 2
    ∧ (handleAnswerSelect 0 1 (initState tenMinQuiz)).score = (initState tenMinQuiz).score :=
  ⟨rfl, by decide,
   (selectAnswer_frame (initState tenMinQuiz) 0 1 2 rfl (by decide)).1,
   (selectAnswer_frame (initState tenMinQuiz) 0 1 2 rfl (by decide)).2.2.2.2.2⟩

/-! ### Lemmas for the results-summary count (claim C10) -/

theorem lookup_isSome_mem :
    ∀ (a : List (Nat × Nat)) (i : Nat), (lookupAnswer a i).isSome = true → i ∈ a.map Prod.fst := by
  intro a
  induction a with
  | nil => intro i h; simp [lookupAnswer] at h
  | cons hd tl ih =>
    obtain ⟨j, v⟩ := hd
    intro i h
    by_cases hij : i = j
    · simp [hij]
    · simp only [lookupAnswer, hij, if_false] at h
      simp [ih i h]

theorem sorted_keys_eq_range' :
    ∀ (n s : Nat) (l : List Nat), List.Pairwise (· < ·) l →
      (∀ x ∈ l, s ≤ x ∧ x < s + n) → (∀ i, s ≤ i → i < s + n → i ∈ l) →
      l = List.range' s n := by
  intro n
  induction n with
  | zero =>
    intro s l _ hb _
    cases l with
    | nil => rfl
    | cons x xs =>
      have := hb x (by simp)
      omega
  | succ n ih =>
    intro s l hp hb hc
    have hs : s ∈ l := hc s le_rfl (by omega)
    cases l with
    | nil => simp at hs
    | cons x xs =>
      have hx : x = s := by
        rcases List.mem_cons.mp hs with h | h
        · omega
        · have hlt : x < s := (List.pairwise_cons.mp hp).1 s h
          have := hb x (by simp)
          omega
      subst hx
      have htl : xs = List.range' (x + 1) n := by
        refine ih (x + 1) xs (List.pairwise_cons.mp hp).2 ?_ ?_
        · intro y hy
          have h1 := (List.pairwise_cons.mp hp).1 y hy
          have h2 := hb y (by simp [hy])
          omega
        · intro i hi1 hi2
          have : i ∈ x :: xs := hc i (by omega) (by omega)
          rcases List.mem_cons.mp this with h | h
          · omega
          · exact h
      rw [htl, List.range'_succ]

theorem zip_map_fst_snd :
    ∀ (l : List (Nat × Nat)), (l.map Prod.fst).zip (l.map Prod.snd) = l := by
  intro l
  induction l with
  | nil => rfl
  | cons hd tl ih => simp [List.zip, ih]

theorem enumFrom_eq_zip_range' :
    ∀ (v : List Nat) (k : Nat), List.enumFrom k v = (List.range' k v.length).zip v := by
  intro v
  induction v with
  | nil => intro k; rfl
  | cons x xs ih => intro k; simp [List.enumFrom, List.range'_succ, ih]

theorem lookup_enumFrom :
    ∀ (v : List Nat) (k j : Nat), lookupAnswer (List.enumFrom k v) (k + j) = v.get? j := by
  intro v
  induction v with
  | nil => intro k j; rfl
  | cons x xs ih =>
    intro k j
    cases j with
    | zero => simp [List.enumFrom, lookupAnswer]
    | succ j =>
      have hne : k + (j + 1) ≠ k := by omega
      simp only [List.enumFrom, lookupAnswer, hne, if_false]
      have harith : k + (j + 1) = (k + 1) + j := by omega
      rw [harith, ih (k + 1) j]
      rfl

theorem counts_align (q : Quiz) (a : List (Nat × Nat)) :
    ∀ (v : List Nat) (l : List Question) (k : Nat),
      v.length = l.length →
      (∀ j, lookupAnswer a (k + j) = v.get? j) →
      (∀ j, q.questions.get? (k + j) = l.get? j) →
      List.countP (fun p => decide ((q.questions.get? p.1).map Question.correctAnswer = some p.2))
          (List.enumFrom k v)
        = countCorrect a k l := by
  intro v
  induction v with
  | nil =>
    intro l k hlen _ _
    cases l with
    | nil => rfl
    | cons qn lt => simp at hlen
  | cons x xs ih =>
    intro l k hlen hv hq
    cases l with
    | nil => simp at hlen
    | cons qn lt =>
      have hqk : q.questions.get? k = some qn := by
        have h0 := hq 0
        simpa using h0
      have hak : lookupAnswer a k = some x := by
        have h0 := hv 0
        simpa using h0
      have ihapp := ih lt (k + 1) (by simpa using hlen)
        (fun j => by
          have hj := hv (j + 1)
          rw [show k + (j + 1) = (k + 1) + j by omega] at hj
          simpa using hj)
        (fun j => by
          have hj := hq (j + 1)
          rw [show k + (j + 1) = (k + 1) + j by omega] at hj
          simpa using hj)
      simp only [List.enumFrom, List.countP_cons, ihapp, countCorrect, hqk, hak,
        Option.map_some]
      by_cases h : x = qn.correctAnswer
      · simp [h, Nat.add_comm]
      · have h2 : qn.correctAnswer ≠ x := fun hh => h hh.symm
        simp [h, h2]

theorem summaryCount_eq_countCorrect_of_complete (q : Quiz) (a : List (Nat × Nat))
    (hsorted : List.Pairwise (fun p r : Nat × Nat => p.1 < r.1) a)
    (hbound : ∀ p ∈ a, p.1 < q.questions.length)
    (hcomplete : ∀ i, i < q.questions.length → (lookupAnswer a i).isSome = true) :
    summaryCount q a = countCorrect a 0 q.questions := by
  have hkeys : a.map Prod.fst = List.range' 0 q.questions.length := by
    apply sorted_keys_eq_range'
    · exact List.pairwise_map.mpr hsorted
    · intro x hx
      obtain ⟨p, hp, rfl⟩ := List.mem_map.mp hx
      exact ⟨Nat.zero_le _, by simpa using hbound p hp⟩
    · intro i _ hi
      exact lookup_isSome_mem a i (hcomplete i (by simpa using hi))
  have hvlen : (a.map Prod.snd).length = q.questions.length := by
    have h1 : (a.map Prod.fst).length = q.questions.length := by
      rw [hkeys, List.length_range']
    simpa using (by simpa using h1 : a.length = q.questions.length)
  have ha : a = List.enumFrom 0 (a.map Prod.snd) := by
    calc a = (a.map Prod.fst).zip (a.map Prod.snd) := (zip_map_fst_snd a).symm
      _ = (List.range' 0 (a.map Prod.snd).length).zip (a.map Prod.snd) := by
          rw [hkeys, hvlen]
      _ = List.enumFrom 0 (a.map Prod.snd) := (enumFrom_eq_zip_range' (a.map Prod.snd) 0).symm
  have hlook : ∀ j, lookupAnswer a j = (a.map Prod.snd).get? j := by
    intro j
    have h1 := lookup_enumFrom (a.map Prod.snd) 0 j
    rw [Nat.zero_add] at h1
    calc lookupAnswer a j = lookupAnswer (List.enumFrom 0 (a.map Prod.snd)) j := by rw [← ha]
      _ = (a.map Prod.snd).get? j := h1
  have hmain := counts_align q a (a.map Prod.snd) q.questions 0 hvlen
    (fun j => by rw [Nat.zero_add]; exact hlook j)
    (fun j => by rw [Nat.zero_add])
  rw [summaryCount, ← List.countP_eq_length_filter]
  exact hmain

theorem mem_insertAnswer (i k : Nat) :
    ∀ (a : List (Nat × Nat)) (p : Nat × Nat), p ∈ insertAnswer i k a → p = (i, k) ∨ p ∈ a := by
  intro a
  induction a with
  | nil =>
    intro p hp
    simp [insertAnswer] at hp
    exact Or.inl (by simp [hp])
  | cons hd tl ih =>
    obtain ⟨j, v⟩ := hd
    intro p hp
    by_cases h1 : i < j
    · simp only [insertAnswer, h1, if_true, List.mem_cons] at hp
      rcases hp with h | h | h
      · exact Or.inl (by simp [h])
      · exact Or.inr (by simp [h])
      · exact Or.inr (by simp [h])
    · by_cases h2 : i = j
      · subst h2
        simp only [insertAnswer] at hp
        rw [if_pos trivial, if_neg h1] at hp
        rcases List.mem_cons.mp hp with h | h
        · exact Or.inl h
        · exact Or.inr (List.mem_cons_of_mem _ h)
      · simp only [insertAnswer, h1, if_false, h2, if_false, List.mem_cons] at hp
        rcases hp with h | h
        · exact Or.inr (by simp [h])
        · rcases ih p h with h3 | h3
          · exact Or.inl h3
          · exact Or.inr (by simp [h3])

/-- Selecting an answer preserves the ascending-key invariant of the answer
object (so the sortedness hypothesis of the summary-count theorem holds for
every session state reachable from `initState`, whose answer map is empty). -/
theorem insertAnswer_pairwise (i k : Nat) :
    ∀ (a : List (Nat × Nat)), List.Pairwise (fun p r : Nat × Nat => p.1 < r.1) a →
      List.Pairwise (fun p r : Nat × Nat => p.1 < r.1) (insertAnswer i k a) := by
  intro a
  induction a with
  | nil => intro _; simp [insertAnswer]
  | cons hd tl ih =>
    obtain ⟨j, v⟩ := hd
    intro hp
    obtain ⟨hhead, htl⟩ := List.pairwise_cons.mp hp
    by_cases h1 : i < j
    · simp only [insertAnswer, h1, if_true]
      refine List.pairwise_cons.mpr ⟨?_, hp⟩
      intro p hp2
      rcases List.mem_cons.mp hp2 with h | h
      · simp [h, h1]
      · exact lt_trans h1 (hhead p h)
    · by_cases h2 : i = j
      · subst h2
        simp only [insertAnswer]
        rw [if_pos trivial, if_neg h1]
        refine List.pairwise_cons.mpr ⟨?_, htl⟩
        intro p hp2
        exact hhead p hp2
      · simp only [insertAnswer, h1, if_false, h2, if_false]
        refine List.pairwise_cons.mpr ⟨?_, ih htl⟩
        intro p hp2
        rcases mem_insertAnswer i k tl p hp2 with h | h
        · simp [h]; omega
        · exact hhead p h

/-- Claim C10. The "Correct Answers" figure of the results summary (values
of the answer object filtered with the POSITIONAL index into the values
array) agrees with the count used by `calculateScore` (which iterates
question indices) whenever every question is answered; on an incomplete answer
map the two can differ — on `twoQuiz` (correct answers `[1, 0]`) with the
single recorded answer `\x7b1: 0\x7d` the summary shows 0 correct while the
score counts 1. The sortedness hypothesis is the JS integer-key enumeration
order, an invariant of every reachable session (`insertAnswer_pairwise`). -/
theorem summary_count_matches_score_count :
    (∀ (q : Quiz) (a : List (Nat × Nat)),
        List.Pairwise (fun p r : Nat × Nat => p.1 < r.1) a →
        (∀ p ∈ a, p.1 < q.questions.length) →
        (∀ i, i < q.questions.length → (lookupAnswer a i).isSome = true) →
        summaryCount q a = countCorrect a 0 q.questions)
    ∧ summaryCount twoQuiz [(1, 0)] ≠ countCorrect [(1, 0)] 0 twoQuiz.questions := by
  exact ⟨fun q a h1 h2 h3 => summaryCount_eq_countCorrect_of_complete q a h1 h2 h3, by decide⟩

/-- Witness for C10: on `twoQuiz` fully answered (`\x7b0:1, 1:0\x7d`) the two
counts agree (both are 2). -/
theorem summary_count_matches_score_count_witness :
    summaryCount twoQuiz [(0, 1), (1, 0)] = countCorrect [(0, 1), (1, 0)] 0 twoQuiz.questions
    ∧ countCorrect [(0, 1), (1, 0)] 0 twoQuiz.questions = 2 :=
  ⟨summary_count_matches_score_count.1 twoQuiz [(0, 1), (1, 0)]
      (by decide) (by decide) (by decide),
   by decide⟩
